import Mathlib

/-!
# rusage: exit-code normalisation and resource-usage mapping of `Run`

A shallow embedding of `run.go` and `usage.go` of `github.com/jwkohnen/rusage`, and
of `BuildFQName` and `Labels` of its package `pusher`.

* Go `int`, `int64` and `time.Duration` values are `Int`s; where the Go code
  computes in 64-bit two's complement the result is reduced with `wrap64`.
* `syscall.WaitStatus` (a `uint32`) and `syscall.Errno` (a `uintptr`) are `Nat`s.
* The operating system (process creation, `wait4`, the monotonic clock) is an
  explicit parameter `OS` of `forkExecVEWait` and `Run`.
* A Go `(value, error)` result is an `Except`.
* Go strings are `String`s (sequences of runes); a Go map is its lookup function.
-/

namespace Rusage

/-! ## Machine integers -/

/-- Reduction of an integer to the signed 64-bit two's complement range. -/
def wrap64 (x : Int) : Int := (x + 2 ^ 63) % 2 ^ 64 - 2 ^ 63

/-- Predicate: the integer is a value of Go's `int64`. -/
def isInt64 (x : Int) : Prop := -(2 ^ 63) ≤ x ∧ x < 2 ^ 63

instance (x : Int) : Decidable (isInt64 x) :=
  inferInstanceAs (Decidable (-(2 ^ 63) ≤ x ∧ x < 2 ^ 63))

/-! ## Exit-code constants (`run.go`, lines 25-32) -/

def ErrSuccess : Int := 0
def ErrOther : Int := 1
def ErrForkExec : Int := 3
def ErrPermission : Int := 126
def ErrNotFound : Int := 127
def ErrSignal : Int := 128

/-! ## Errors (package `os`, `syscall`, `internal/oserror`) -/

/-- The `syscall.Errno` values that `Errno.Is` inspects for the two classes used here. -/
def EPERM : Nat := 1
def ENOENT : Nat := 2
def EACCES : Nat := 13
def ECHILD : Nat := 10
def EINVAL : Nat := 22

/-- Go `error` values as seen by `os.IsPermission`, `os.IsNotExist` and the type
assertion `err.(syscall.Errno)`: a bare `syscall.Errno`, the `oserror` sentinels,
the three wrapper types that `os.underlyingError` unwraps, and any other error. -/
inductive GoError where
  | errno (e : Nat)
  | errPermission
  | errExist
  | errNotExist
  | pathError (op path : String) (err : GoError)
  | linkError (op old new : String) (err : GoError)
  | syscallError (call : String) (err : GoError)
  | other (msg : String)
  deriving DecidableEq, Repr

namespace GoError

/-- Go `os.underlyingError`: unwraps one `*PathError`, `*LinkError` or `*SyscallError`. -/
def underlyingError : GoError → GoError
  | pathError _ _ err => err
  | linkError _ _ _ err => err
  | syscallError _ err => err
  | err => err

/-- Go `os.IsPermission`: the underlying error is `ErrPermission`, or is an
`Errno` equal to `EACCES` or `EPERM`. -/
def IsPermission (err : GoError) : Bool :=
  match underlyingError err with
  | errPermission => true
  | errno e => e == EACCES || e == EPERM
  | _ => false

/-- Go `os.IsNotExist`: the underlying error is `ErrNotExist`, or is the `Errno` `ENOENT`. -/
def IsNotExist (err : GoError) : Bool :=
  match underlyingError err with
  | errNotExist => true
  | errno e => e == ENOENT
  | _ => false

end GoError

/-! ## Wait status (`syscall.WaitStatus` on Linux) -/

abbrev WaitStatus := Nat

namespace WaitStatus

def mask : Nat := 0x7F
def core : Nat := 0x80
def exited : Nat := 0x00
def stopped : Nat := 0x7F
def shift : Nat := 8

def Exited (w : WaitStatus) : Bool := w &&& mask == exited

def Signaled (w : WaitStatus) : Bool := w &&& mask != stopped && w &&& mask != exited

def Stopped (w : WaitStatus) : Bool := w &&& 0xFF == stopped

def Continued (w : WaitStatus) : Bool := w == 0xFFFF

def ExitStatus (w : WaitStatus) : Int :=
  if !Exited w then -1 else (((w >>> shift) &&& 0xFF : Nat) : Int)

def Signal (w : WaitStatus) : Int :=
  if !Signaled w then -1 else ((w &&& mask : Nat) : Int)

def StopSignal (w : WaitStatus) : Int :=
  if !Stopped w then -1 else (((w >>> shift) &&& 0xFF : Nat) : Int)

end WaitStatus

/-! ## Resource accounting (`syscall.Rusage`, `syscall.Timeval` on linux/amd64) -/

structure Timeval where
  Sec : Int
  Usec : Int
  deriving DecidableEq, Repr

/-- Go `syscall.TimevalToNsec`: `tv.Sec*1e9 + tv.Usec*1e3` in `int64`. -/
def TimevalToNsec (tv : Timeval) : Int :=
  wrap64 (wrap64 (tv.Sec * 1000000000) + wrap64 (tv.Usec * 1000))

structure SysRusage where
  Utime : Timeval
  Stime : Timeval
  Maxrss : Int
  Ixrss : Int
  Idrss : Int
  Isrss : Int
  Minflt : Int
  Majflt : Int
  Nswap : Int
  Inblock : Int
  Oublock : Int
  Msgsnd : Int
  Msgrcv : Int
  Nsignals : Int
  Nvcsw : Int
  Nivcsw : Int
  deriving DecidableEq, Repr

/-- Go `os.ProcessState` on Unix: the pid, the wait status and the rusage of `wait4`. -/
structure ProcessState where
  pid : Int
  status : WaitStatus
  rusage : SysRusage
  deriving DecidableEq, Repr

namespace ProcessState

def Sys (p : ProcessState) : WaitStatus := p.status

def SysUsage (p : ProcessState) : SysRusage := p.rusage

/-- Go `(*os.ProcessState).Success`: `p.status.ExitStatus() == 0`. -/
def Success (p : ProcessState) : Bool := WaitStatus.ExitStatus p.status == 0

end ProcessState

/-- Go `time.Duration.Seconds`: whole seconds plus the nanosecond rest over `1e9`. -/
def Seconds (d : Int) : Float :=
  Float.ofInt (Int.tdiv d 1000000000) + Float.ofInt (Int.tmod d 1000000000) / 1e9

/-- The `ResourceUsage` struct of `usage.go`; durations are nanosecond counts. -/
structure ResourceUsage where
  UserTime : Int
  SystemTime : Int
  ElapsedTime : Int
  AverageCPU : Float
  MaxResidentSetSize : Int
  MinorPageFaults : Int
  MajorPageFaults : Int
  InBlockIO : Int
  OutBlockIO : Int
  ContextSwitchesVoluntarily : Int
  ContextSwitchesInvoluntarily : Int

/-! ## The operating system as seen by `forkExecVEWait` -/

/-- What the environment answers during one call of `Run`: the error of
`os.StartProcess` (or `none`), the result of `proc.Wait()`, and the value of
`time.Since(start)` in nanoseconds when the wait returns. -/
structure OS where
  StartProcess : Option GoError
  Wait : Except GoError ProcessState
  Since : Int

/-- The observable steps of `forkExecVEWait`, in program order. -/
inductive Event where
  | makeChan
  | signalNotify
  | timeNow
  | startProcess
  | goForward
  | procWait
  | signalStop
  | closeChan
  deriving DecidableEq, Repr

/-- Result of `forkExecVEWait`: the steps taken and the returned `(state, elapsedTime, err)`;
`state` and `elapsedTime` are only kept when `err` is nil, the one case in which `Run` reads them. -/
structure ForkExecResult where
  trace : List Event
  result : Except GoError (ProcessState × Int)

/-- The two deferred calls of `forkExecVEWait`, run last-registered first:
`signal.Stop(ss)`, then `close(ss)`. -/
def deferred : List Event := [Event.signalStop, Event.closeChan]

/-- Go `forkExecVEWait` (`run.go`, lines 102-163). -/
def forkExecVEWait (os : OS) : ForkExecResult :=
  let setup := [Event.makeChan, Event.signalNotify, Event.timeNow, Event.startProcess]
  match os.StartProcess with
  | some err => ⟨setup ++ deferred, .error err⟩
  | none =>
    let body := setup ++ [Event.goForward, Event.procWait]
    match os.Wait with
    | .error err => ⟨body ++ deferred, .error err⟩
    | .ok state => ⟨body ++ deferred, .ok (state, os.Since)⟩

/-! ## Exit-code decoding (`run.go`, lines 165-213) -/

/-- Go `codeFromExecErr`; the conversion `int(errno)` is from `uintptr` to `int`. -/
def codeFromExecErr (err : GoError) : Int :=
  if GoError.IsPermission err then ErrPermission
  else if GoError.IsNotExist err then ErrNotFound
  else
    match err with
    | GoError.errno errno => wrap64 ((errno % 2 ^ 64 : Nat) : Int)
    | _ => ErrForkExec

/-- Go `codeFromProcessState`: the `switch` is evaluated top to bottom. -/
def codeFromProcessState (state : ProcessState) : Int :=
  let ws := state.Sys
  if state.Success then ErrSuccess
  else if WaitStatus.Exited ws then WaitStatus.ExitStatus ws
  else if WaitStatus.Signaled ws then ErrSignal + WaitStatus.Signal ws
  else if WaitStatus.Stopped ws then ErrSignal + WaitStatus.StopSignal ws
  else ErrOther

/-- Go `checkCodeRange`. -/
def checkCodeRange (code : Int) : Int :=
  if code < 0 ∨ code > 255 then 255 else code

/-- The three results of `Run`. -/
structure RunResult where
  code : Int
  resourceUsage : Option ResourceUsage
  err : Option GoError

/-- The body of `Run` before the deferred `checkCodeRange` (`run.go`, lines 71-99). -/
def runBody (os : OS) : RunResult :=
  match (forkExecVEWait os).result with
  | .error err => ⟨codeFromExecErr err, none, some err⟩
  | .ok (processState, elapsedTime) =>
    let sr := processState.SysUsage
    let userTime := TimevalToNsec sr.Utime
    let systemTime := TimevalToNsec sr.Stime
    let averageCPU := Seconds (wrap64 (userTime + systemTime)) / Seconds elapsedTime
    let resourceUsage : ResourceUsage :=
      { UserTime := userTime
        SystemTime := systemTime
        ElapsedTime := elapsedTime
        AverageCPU := averageCPU
        MaxResidentSetSize := wrap64 (sr.Maxrss * 2 ^ 10)
        MinorPageFaults := sr.Minflt
        MajorPageFaults := sr.Majflt
        InBlockIO := sr.Inblock
        OutBlockIO := sr.Oublock
        ContextSwitchesVoluntarily := sr.Nvcsw
        ContextSwitchesInvoluntarily := sr.Nivcsw }
    ⟨codeFromProcessState processState, some resourceUsage, none⟩

/-- Go `Run` (`run.go`, lines 59-100): the body, then the deferred
`code = checkCodeRange(code)` on the named result. -/
def Run (os : OS) : RunResult :=
  let r := runBody os
  { r with code := checkCodeRange r.code }

/-! ## Metric names and help texts (`usage.go`, lines 27-113) -/

/-- The fields of the Go struct `ResourceUsage` in declaration order, each with the
value of its `rusage_metric` struct tag (`none` when the tag is missing). -/
def resourceUsageFields : List (String × Option String) :=
  [ ("UserTime", some "user_time"),
    ("SystemTime", some "system_time"),
    ("ElapsedTime", some "elapsed_time"),
    ("AverageCPU", some "average_cpu"),
    ("MaxResidentSetSize", some "max_resident_set_size"),
    ("MinorPageFaults", some "minor_page_faults"),
    ("MajorPageFaults", some "major_page_faults"),
    ("InBlockIO", some "in_block_io"),
    ("OutBlockIO", some "out_block_io"),
    ("ContextSwitchesVoluntarily", some "context_switches_voluntary"),
    ("ContextSwitchesInvoluntarily", some "context_switches_involuntary") ]

/-- Go `getMetricNames`: the tag of every field, in order; a missing tag panics,
which is the `error` result carrying the field name. -/
def getMetricNames : Except String (List String) :=
  resourceUsageFields.mapM fun f =>
    match f.2 with
    | some m => Except.ok m
    | none => Except.error f.1

/-- The map literal `metricDoc`, as its key/value entries in source order. -/
def metricDoc : List (String × String) :=
  [ ("user_time", "UserTime is the total amount of time spent executing in user mode"),
    ("system_time", "SystemTime is the total amount of time spent executing in kernel mode"),
    ("elapsed_time", "Elapsed real time is the time that passed during the execution of the process.  It uses the " ++
      "monotonic process timer that is resilient against local clock skew due to e.g. leap-second, clock " ++
      "smearing and the NTP clock slew discipline."),
    ("average_cpu", "AverageCPU is (UTime + STime) / ElapsedTime"),
    ("max_resident_set_size", "MaxResidentSetSize is the maximum resident set size used (in bytes)"),
    ("minor_page_faults", "MinorPageFaults is the number of page faults serviced without any I/O activity; here I/O " ++
      "activity is avoided by “reclaiming” a page frame from the list of pages awaiting reallocation"),
    ("major_page_faults", "MajorPageFaults is the number of page faults serviced that required I/O activity"),
    ("in_block_io", "InBlockIO is the  number of times the filesystem had to perform input"),
    ("out_block_io", "OutBlockIO is the number of times the filesystem had to perform output"),
    ("context_switches_voluntary", "ContextSwitchesVoluntarily is the number of times a context switch resulted " ++
      "due to a process voluntarily giving up the processor before its time slice was completed (usually to " ++
      "await availability of a resource)"),
    ("context_switches_involuntary", "ContextSwitchesInvoluntarily is the number of times a context switch " ++
      "resulted due to a higher priority process becoming runnable or because the current process exceeded its " ++
      "time slice") ]

/-! ## Package `pusher`: `BuildFQName` (`textexposition.go`, lines 46-59) -/

/-- Go `strings.Join`. -/
def Join (elems : List String) (sep : String) : String := sep.intercalate elems

/-- Go `BuildFQName`. -/
def BuildFQName (nameSpace subsystem name : String) : String :=
  if name = "" then ""
  else if nameSpace ≠ "" ∧ subsystem ≠ "" then Join [nameSpace, subsystem, name] "_"
  else if nameSpace ≠ "" then Join [nameSpace, name] "_"
  else if subsystem ≠ "" then Join [subsystem, name] "_"
  else name

/-- The component list the doc comment of `BuildFQName` describes: the three
components in order, without the empty ones. -/
def nonEmptyComponents (nameSpace subsystem name : String) : List String :=
  [nameSpace, subsystem, name].filter fun c => c ≠ ""

/-! ## Package `pusher`: `Labels` (`label.go`)

Go strings are modelled as `String`s, that is as sequences of runes (valid UTF-8). -/

/-- Go `unicode.IsSpace`: the Latin-1 spaces, and the `White_Space` property above Latin-1. -/
def IsSpace (r : Char) : Bool :=
  let c := r.toNat
  if c ≤ 0xFF then
    c == 0x09 || c == 0x0A || c == 0x0B || c == 0x0C || c == 0x0D || c == 0x20 ||
      c == 0x85 || c == 0xA0
  else
    c == 0x1680 || (0x2000 ≤ c && c ≤ 0x200A) || c == 0x2028 || c == 0x2029 ||
      c == 0x202F || c == 0x205F || c == 0x3000

/-- Go `comma`. -/
def comma (r : Char) : Bool := r == ','

/-- Go `spaceOrQuote`; the quote is the double quote, code point 34. -/
def spaceOrQuote (r : Char) : Bool := r == Char.ofNat 34 || IsSpace r

/-- The loop of Go `strings.FieldsFunc`: `cur` is the field being read (empty when no
field is open); a rune satisfying `f` closes the open field, any other rune extends it. -/
def fieldsFuncLoop (f : Char → Bool) : List Char → List Char → List (List Char)
  | [], cur => if cur = [] then [] else [cur]
  | r :: rest, cur =>
    if f r then
      if cur = [] then fieldsFuncLoop f rest [] else cur :: fieldsFuncLoop f rest []
    else fieldsFuncLoop f rest (cur ++ [r])

/-- Go `strings.FieldsFunc`. -/
def FieldsFunc (s : String) (f : Char → Bool) : List String :=
  (fieldsFuncLoop f s.data []).map String.mk

/-- Go `strings.TrimFunc`: `TrimRightFunc (TrimLeftFunc s f) f`. -/
def TrimFunc (s : String) (f : Char → Bool) : String :=
  String.mk ((s.data.dropWhile f).reverse.dropWhile f).reverse

/-- Go `trimSpaceAndQuote`. -/
def trimSpaceAndQuote (s : String) : String := TrimFunc s spaceOrQuote

/-- Go `strings.SplitN` on runes, for a separator of one rune: at most `n` pieces,
the last one being the unsplit rest. -/
def splitNRunes (sep : Char) : Nat → List Char → List (List Char)
  | 0, _ => []
  | 1, s => [s]
  | n + 2, s =>
    if s.contains sep then
      s.takeWhile (fun r => r != sep) :: splitNRunes sep (n + 1) ((s.dropWhile fun r => r != sep).tail)
    else [s]

/-- Go `strings.SplitN(s, sep, n)` for a one-rune separator `sep` and `n ≥ 0`. -/
def SplitN (s : String) (sep : Char) (n : Nat) : List String :=
  (splitNRunes sep n s.data).map String.mk

/-- Go `strings.ContainsRune`. -/
def ContainsRune (s : String) (r : Char) : Bool := s.data.contains r

/-- The two validity predicates of `github.com/prometheus/common/model` that
`Labels.Set` calls: `LabelName.IsValid` and `LabelValue.IsValid`. They belong to a
library outside the repository and are parameters of the model. -/
structure Validation where
  LabelNameIsValid : String → Bool
  LabelValueIsValid : String → Bool

/-- Go `model.LabelSet`, a `map[LabelName]LabelValue`, as its lookup function. -/
abbrev LabelSet := String → Option String

/-- Go `make(model.LabelSet)`: the empty map. -/
def LabelSet.empty : LabelSet := fun _ => none

/-- Go `m[k] = v`. -/
def LabelSet.store (m : LabelSet) (k v : String) : LabelSet :=
  fun x => if x = k then some v else m x

/-- Go `model.LabelSet{k1: v1, ...}`: a map literal. -/
def LabelSet.ofPairs (ps : List (String × String)) : LabelSet :=
  ps.foldl (fun m p => LabelSet.store m p.1 p.2) LabelSet.empty

/-- The type `Labels` of `label.go`. -/
structure Labels where
  hasBeenReset : Bool
  labelSet : LabelSet

/-- Go `NewLabels`. -/
def NewLabels (ls : LabelSet) : Labels := { hasBeenReset := false, labelSet := ls }

/-- The error `fmt.Errorf("not a valid label: %q", l)` of `Labels.Set`, with its item `l`. -/
inductive SetError where
  | notAValidLabel (l : String)
  deriving DecidableEq, Repr

/-- The `for` loop of Go `Labels.Set` over the fields of the input: the label set
reached and the error returned, if any. -/
def setLoop (vd : Validation) : List String → LabelSet → LabelSet × Option SetError
  | [], m => (m, none)
  | l :: rest, m =>
    match SplitN l '=' 2 with
    | [kv0, kv1] =>
      let k := trimSpaceAndQuote kv0
      let v := trimSpaceAndQuote kv1
      if !vd.LabelNameIsValid k || ContainsRune k '/' || !vd.LabelValueIsValid v then
        (m, some (SetError.notAValidLabel l))
      else setLoop vd rest (LabelSet.store m k v)
    | _ => (m, some (SetError.notAValidLabel l))

/-- Go `(*Labels).Set`: the receiver after the call and the returned error. -/
def Labels.Set (vd : Validation) (ll : Labels) (v : String) : Labels × Option SetError :=
  let ll1 : Labels :=
    if !ll.hasBeenReset then { hasBeenReset := true, labelSet := LabelSet.empty } else ll
  let r := setLoop vd (FieldsFunc v comma) ll1.labelSet
  ({ ll1 with labelSet := r.1 }, r.2)

/-- Go `(*Labels).LabelSet`. -/
def Labels.LabelSet (ll : Labels) : LabelSet := ll.labelSet

/-- A sequence of `Set` calls on one receiver: the receiver after the last call if
every call returned a nil error, `none` as soon as one call returns an error. -/
def setAll (vd : Validation) : Labels → List String → Option Labels
  | ll, [] => some ll
  | ll, v :: rest =>
    match Labels.Set vd ll v with
    | (ll1, none) => setAll vd ll1 rest
    | (_, some _) => none

/-! ### The parse of one item of an input of `Labels.Set` -/

/-- The name of an item: the text before the first `=`, trimmed. -/
def itemName (l : String) : String :=
  trimSpaceAndQuote (String.mk (l.data.takeWhile fun r => r != '='))

/-- The value of an item: the text after the first `=`, trimmed. -/
def itemValue (l : String) : String :=
  trimSpaceAndQuote (String.mk ((l.data.dropWhile fun r => r != '=').tail))

/-- The name/value pairs of the items of a sequence of inputs, in order. -/
def parsedPairs (calls : List String) : List (String × String) :=
  calls.flatMap fun v => (FieldsFunc v comma).map fun l => (itemName l, itemValue l)

/-- An item is accepted by `Labels.Set` when it contains `=`, its name is a valid
label name without `/`, and its value is a valid label value. -/
def itemValid (vd : Validation) (l : String) : Bool :=
  l.data.contains '=' && vd.LabelNameIsValid (itemName l) &&
    !ContainsRune (itemName l) '/' && vd.LabelValueIsValid (itemValue l)

/-- A sample of the library predicates: the legacy label-name pattern
`[a-zA-Z_][a-zA-Z0-9_]*`, and every (valid UTF-8) string as label value. -/
def legacyValidation : Validation where
  LabelNameIsValid := fun s =>
    match s.data with
    | [] => false
    | c :: cs => (c.isAlpha || c == '_') && cs.all fun r => r.isAlphanum || r == '_'
  LabelValueIsValid := fun _ => true

/-! ## Concrete environments used to exercise the definitions -/

/-- An accounting record with the given raw `Maxrss` (kilobytes). -/
def sampleRusage (maxrss : Int) : SysRusage :=
  { Utime := ⟨1, 500000⟩, Stime := ⟨0, 250000⟩, Maxrss := maxrss, Ixrss := 0, Idrss := 0,
    Isrss := 0, Minflt := 120, Majflt := 3, Nswap := 0, Inblock := 8, Oublock := 16,
    Msgsnd := 0, Msgrcv := 0, Nsignals := 0, Nvcsw := 5, Nivcsw := 7 }

/-- A process state with the given wait status. -/
def sampleState (status : WaitStatus) : ProcessState :=
  { pid := 4242, status := status, rusage := sampleRusage 2048 }

/-- An environment in which the child starts and `wait4` reports `state` after two seconds. -/
def waitedOS (state : ProcessState) : OS :=
  { StartProcess := none, Wait := .ok state, Since := 2000000000 }

/-- An environment in which `os.StartProcess` fails with `err`. -/
def spawnFailedOS (err : GoError) : OS :=
  { StartProcess := some err, Wait := .error err, Since := 0 }

/-- An environment in which the child starts and `proc.Wait()` fails with `err`. -/
def waitFailedOS (err : GoError) : OS :=
  { StartProcess := none, Wait := .error err, Since := 1000 }

/-! ## Auxiliary lemmas -/

theorem checkCodeRange_bounds (code : Int) :
    0 ≤ checkCodeRange code ∧ checkCodeRange code ≤ 255 := by
  unfold checkCodeRange
  split_ifs with h
  · omega
  · omega

theorem checkCodeRange_of_inRange (code : Int) (h0 : 0 ≤ code) (h1 : code ≤ 255) :
    checkCodeRange code = code := by
  unfold checkCodeRange
  rw [if_neg]
  omega

theorem Run_code_eq (os : OS) : (Run os).code = checkCodeRange (runBody os).code := rfl

theorem Run_err_eq (os : OS) : (Run os).err = (runBody os).err := rfl

theorem Run_resourceUsage_eq (os : OS) :
    (Run os).resourceUsage = (runBody os).resourceUsage := rfl

theorem forkExecVEWait_spawn_error (os : OS) (err : GoError)
    (h : os.StartProcess = some err) : (forkExecVEWait os).result = .error err := by
  simp [forkExecVEWait, h]

theorem forkExecVEWait_wait_error (os : OS) (err : GoError)
    (hs : os.StartProcess = none) (hw : os.Wait = .error err) :
    (forkExecVEWait os).result = .error err := by
  simp [forkExecVEWait, hs, hw]

theorem forkExecVEWait_ok (os : OS) (state : ProcessState)
    (hs : os.StartProcess = none) (hw : os.Wait = .ok state) :
    (forkExecVEWait os).result = .ok (state, os.Since) := by
  simp [forkExecVEWait, hs, hw]

theorem runBody_of_error (os : OS) (err : GoError)
    (h : (forkExecVEWait os).result = .error err) :
    runBody os = ⟨codeFromExecErr err, none, some err⟩ := by
  simp [runBody, h]

theorem runBody_code_of_ok (os : OS) (state : ProcessState)
    (hs : os.StartProcess = none) (hw : os.Wait = .ok state) :
    (runBody os).code = codeFromProcessState state := by
  simp [runBody, forkExecVEWait_ok os state hs hw]

theorem runBody_err_of_ok (os : OS) (state : ProcessState)
    (hs : os.StartProcess = none) (hw : os.Wait = .ok state) :
    (runBody os).err = none := by
  simp [runBody, forkExecVEWait_ok os state hs hw]

theorem exitStatus_of_exited (w : Nat) (h : WaitStatus.Exited w = true) :
    WaitStatus.ExitStatus w = (((w >>> 8) &&& 0xFF : Nat) : Int) := by
  simp [WaitStatus.ExitStatus, h, WaitStatus.shift]

theorem exitStatus_bounds (w : Nat) (h : WaitStatus.Exited w = true) :
    0 ≤ WaitStatus.ExitStatus w ∧ WaitStatus.ExitStatus w ≤ 255 := by
  rw [exitStatus_of_exited w h]
  have hb := @Nat.and_le_right (w >>> 8) 0xFF
  generalize (w >>> 8) &&& 0xFF = m at hb ⊢
  omega

theorem exitStatus_of_not_exited (w : Nat) (h : WaitStatus.Exited w = false) :
    WaitStatus.ExitStatus w = -1 := by
  simp [WaitStatus.ExitStatus, h]

theorem not_exited_of_signaled (w : Nat) (h : WaitStatus.Signaled w = true) :
    WaitStatus.Exited w = false := by
  simp only [WaitStatus.Signaled, Bool.and_eq_true, bne_iff_ne] at h
  simp only [WaitStatus.Exited, beq_eq_false_iff_ne]
  exact h.2

theorem signal_of_signaled (w : Nat) (h : WaitStatus.Signaled w = true) :
    WaitStatus.Signal w = ((w &&& 0x7F : Nat) : Int) := by
  simp [WaitStatus.Signal, h, WaitStatus.mask]

theorem signal_bounds (w : Nat) (h : WaitStatus.Signaled w = true) :
    1 ≤ WaitStatus.Signal w ∧ WaitStatus.Signal w ≤ 126 := by
  have hb := @Nat.and_le_right w 0x7F
  rw [signal_of_signaled w h]
  simp only [WaitStatus.Signaled, Bool.and_eq_true, bne_iff_ne, WaitStatus.mask,
    WaitStatus.stopped, WaitStatus.exited] at h
  generalize w &&& 0x7F = m at h hb ⊢
  have h1 : m ≠ 127 := h.1
  have h2 : m ≠ 0 := h.2
  omega

theorem codeFromProcessState_signaled (state : ProcessState)
    (h : WaitStatus.Signaled state.status = true) :
    codeFromProcessState state = 128 + WaitStatus.Signal state.status := by
  have hne := not_exited_of_signaled _ h
  simp [codeFromProcessState, ProcessState.Success, ProcessState.Sys,
    exitStatus_of_not_exited _ hne, hne, h, ErrSignal]

theorem codeFromProcessState_exited (state : ProcessState)
    (h : WaitStatus.Exited state.status = true) :
    codeFromProcessState state = WaitStatus.ExitStatus state.status := by
  by_cases hz : WaitStatus.ExitStatus state.status = 0
  · simp [codeFromProcessState, ProcessState.Success, hz, ErrSuccess]
  · simp [codeFromProcessState, ProcessState.Success, ProcessState.Sys, hz, h]

theorem runBody_cases (os : OS) :
    (∃ err, runBody os = ⟨codeFromExecErr err, none, some err⟩) ∨
    (∃ state ru, runBody os = ⟨codeFromProcessState state, some ru, none⟩) := by
  unfold runBody
  cases h : (forkExecVEWait os).result with
  | error err => exact Or.inl ⟨err, rfl⟩
  | ok p => exact Or.inr ⟨p.1, _, rfl⟩

theorem runBody_usage_of_ok (os : OS) (state : ProcessState)
    (hs : os.StartProcess = none) (hw : os.Wait = .ok state) :
    ∃ ru, (runBody os).resourceUsage = some ru ∧
      ru.MaxResidentSetSize = wrap64 (state.rusage.Maxrss * 2 ^ 10) := by
  have h : (runBody os).resourceUsage.map ResourceUsage.MaxResidentSetSize =
      some (wrap64 (state.rusage.Maxrss * 2 ^ 10)) := by
    simp [runBody, forkExecVEWait_ok os state hs hw, ProcessState.SysUsage]
  rw [Option.map_eq_some'] at h
  exact h

theorem wrap64_eq_self_iff (x : Int) : wrap64 x = x ↔ -(2 ^ 63) ≤ x ∧ x < 2 ^ 63 := by
  unfold wrap64
  omega

theorem checkCodeRange_eq_zero_iff (code : Int) : checkCodeRange code = 0 ↔ code = 0 := by
  unfold checkCodeRange
  split_ifs with h
  · omega
  · rfl

theorem isPermission_false_of_isNotExist (err : GoError)
    (h : GoError.IsNotExist err = true) : GoError.IsPermission err = false := by
  unfold GoError.IsNotExist at h
  unfold GoError.IsPermission
  generalize GoError.underlyingError err = u at h ⊢
  cases u <;> simp_all [EACCES, EPERM, ENOENT]

theorem codeFromExecErr_of_isPermission (err : GoError)
    (h : GoError.IsPermission err = true) : codeFromExecErr err = 126 := by
  simp [codeFromExecErr, h, ErrPermission]

theorem codeFromExecErr_of_isNotExist (err : GoError)
    (h : GoError.IsNotExist err = true) : codeFromExecErr err = 127 := by
  simp [codeFromExecErr, h, isPermission_false_of_isNotExist err h, ErrNotFound]

theorem codeFromExecErr_of_errno (e : Nat) (he : e < 2 ^ 64)
    (hp : GoError.IsPermission (GoError.errno e) = false)
    (hn : GoError.IsNotExist (GoError.errno e) = false) :
    checkCodeRange (codeFromExecErr (GoError.errno e)) = if e ≤ 255 then (e : Int) else 255 := by
  simp only [codeFromExecErr, hp, hn, Bool.false_eq_true, if_false, checkCodeRange, wrap64]
  rw [Nat.mod_eq_of_lt he]
  split_ifs <;> omega

theorem codeFromExecErr_of_other (err : GoError)
    (hp : GoError.IsPermission err = false) (hn : GoError.IsNotExist err = false)
    (hb : ∀ e, err ≠ GoError.errno e) : codeFromExecErr err = 3 := by
  cases err with
  | errno e => exact absurd rfl (hb e)
  | _ => simp [codeFromExecErr, hp, hn, ErrForkExec]

theorem codeFromExecErr_ne_zero (err : GoError)
    (hb : ∀ e, err = GoError.errno e → e % 2 ^ 64 ≠ 0) : codeFromExecErr err ≠ 0 := by
  unfold codeFromExecErr
  split_ifs with hp hn
  · simp [ErrPermission]
  · simp [ErrNotFound]
  · cases err with
    | errno e =>
      have h0 := hb e rfl
      simp only [wrap64]
      omega
    | _ => simp [ErrForkExec]

/-! ## Claims -/

/-- C1: for every behaviour of the operating system (any spawn error, any wait
error, any wait status), the exit code returned by `Run` lies in `0..255`. -/
theorem Run_code_in_range (os : OS) : 0 ≤ (Run os).code ∧ (Run os).code ≤ 255 := by
  rw [Run_code_eq]
  exact checkCodeRange_bounds _

/-- C2: when the child was started, the wait succeeded and the wait status reports
a normal exit with status `S`, then `0 ≤ S ≤ 255`, the code computed by the body of
`Run` is `S`, the final clamp leaves it unchanged, and the error is nil; for `S = 0`
the returned code is `0`. -/
theorem Run_normal_exit (os : OS) (state : ProcessState) (S : Int)
    (hs : os.StartProcess = none) (hw : os.Wait = .ok state)
    (hex : WaitStatus.Exited state.status = true)
    (hS : WaitStatus.ExitStatus state.status = S) :
    0 ≤ S ∧ S ≤ 255 ∧ (runBody os).code = S ∧ (Run os).code = S ∧ (Run os).err = none := by
  have hb := exitStatus_bounds _ hex
  rw [hS] at hb
  have hc : (runBody os).code = S := by
    rw [runBody_code_of_ok os state hs hw, codeFromProcessState_exited state hex, hS]
  refine ⟨hb.1, hb.2, hc, ?_, ?_⟩
  · rw [Run_code_eq, hc]
    exact checkCodeRange_of_inRange S hb.1 hb.2
  · rw [Run_err_eq]
    exact runBody_err_of_ok os state hs hw

/-- C3: when the child was started, the wait succeeded and the wait status reports
termination by signal `N`, then `Run` returns exactly `128 + N`, which is below `255`
so that the final clamp does not replace it, and the error is nil. -/
theorem Run_signaled (os : OS) (state : ProcessState) (N : Int)
    (hs : os.StartProcess = none) (hw : os.Wait = .ok state)
    (hsig : WaitStatus.Signaled state.status = true)
    (hN : WaitStatus.Signal state.status = N) :
    (runBody os).code = 128 + N ∧ (Run os).code = 128 + N ∧ 128 + N < 255 ∧
      (Run os).err = none := by
  have hb := signal_bounds _ hsig
  rw [hN] at hb
  have hc : (runBody os).code = 128 + N := by
    rw [runBody_code_of_ok os state hs hw, codeFromProcessState_signaled state hsig, hN]
  refine ⟨hc, ?_, by omega, ?_⟩
  · rw [Run_code_eq, hc]
    exact checkCodeRange_of_inRange _ (by omega) (by omega)
  · rw [Run_err_eq]
    exact runBody_err_of_ok os state hs hw

/-- C2 (witness): wait status `0xFF00`, a normal exit with status 255. -/
theorem Run_normal_exit_witness :
    (waitedOS (sampleState 0xFF00)).StartProcess = none ∧
    (waitedOS (sampleState 0xFF00)).Wait = .ok (sampleState 0xFF00) ∧
    WaitStatus.Exited (sampleState 0xFF00).status = true ∧
    WaitStatus.ExitStatus (sampleState 0xFF00).status = 255 ∧
    (0 ≤ (255 : Int) ∧ (255 : Int) ≤ 255 ∧
      (runBody (waitedOS (sampleState 0xFF00))).code = 255 ∧
      (Run (waitedOS (sampleState 0xFF00))).code = 255 ∧
      (Run (waitedOS (sampleState 0xFF00))).err = none) :=
  ⟨rfl, rfl, by decide, by decide,
    Run_normal_exit (waitedOS (sampleState 0xFF00)) (sampleState 0xFF00) 255 rfl rfl
      (by decide) (by decide)⟩

/-- C3 (witness): wait status `15`, termination by SIGTERM, gives 143. -/
theorem Run_signaled_witness :
    (waitedOS (sampleState 15)).StartProcess = none ∧
    (waitedOS (sampleState 15)).Wait = .ok (sampleState 15) ∧
    WaitStatus.Signaled (sampleState 15).status = true ∧
    WaitStatus.Signal (sampleState 15).status = 15 ∧
    ((runBody (waitedOS (sampleState 15))).code = 128 + 15 ∧
      (Run (waitedOS (sampleState 15))).code = 128 + 15 ∧ (128 : Int) + 15 < 255 ∧
      (Run (waitedOS (sampleState 15))).err = none) :=
  ⟨rfl, rfl, by decide, by decide,
    Run_signaled (waitedOS (sampleState 15)) (sampleState 15) 15 rfl rfl
      (by decide) (by decide)⟩

/-- C4: `codeFromProcessState` returns the result of the first rule that applies:
success gives 0; otherwise an exited status gives its exit status; otherwise a
signaled status gives 128 plus the signal number; otherwise a stopped status gives
128 plus the stop-signal number; otherwise the result is 1, which in particular is
the result for a continued status. -/
theorem codeFromProcessState_precedence (state : ProcessState) :
    (state.Success = true → codeFromProcessState state = 0) ∧
    (state.Success = false → WaitStatus.Exited state.status = true →
      codeFromProcessState state = WaitStatus.ExitStatus state.status) ∧
    (state.Success = false → WaitStatus.Exited state.status = false →
      WaitStatus.Signaled state.status = true →
      codeFromProcessState state = 128 + WaitStatus.Signal state.status) ∧
    (state.Success = false → WaitStatus.Exited state.status = false →
      WaitStatus.Signaled state.status = false → WaitStatus.Stopped state.status = true →
      codeFromProcessState state = 128 + WaitStatus.StopSignal state.status) ∧
    (state.Success = false → WaitStatus.Exited state.status = false →
      WaitStatus.Signaled state.status = false → WaitStatus.Stopped state.status = false →
      codeFromProcessState state = 1) ∧
    (WaitStatus.Continued state.status = true → codeFromProcessState state = 1) := by
  refine ⟨?_, ?_, ?_, ?_, ?_, ?_⟩
  · intro h
    simp [codeFromProcessState, h, ErrSuccess]
  · intro h1 h2
    simp [codeFromProcessState, ProcessState.Sys, h1, h2]
  · intro h1 h2 h3
    simp [codeFromProcessState, ProcessState.Sys, h1, h2, h3, ErrSignal]
  · intro h1 h2 h3 h4
    simp [codeFromProcessState, ProcessState.Sys, h1, h2, h3, h4, ErrSignal]
  · intro h1 h2 h3 h4
    simp [codeFromProcessState, ProcessState.Sys, h1, h2, h3, h4, ErrOther]
  · intro h
    have hw : state.status = 0xFFFF := by
      simpa [WaitStatus.Continued] using h
    have e1 : WaitStatus.Exited state.status = false := by rw [hw]; decide
    have e2 : WaitStatus.Signaled state.status = false := by rw [hw]; decide
    have e3 : WaitStatus.Stopped state.status = false := by rw [hw]; decide
    have e4 : state.Success = false := by
      simp [ProcessState.Success, exitStatus_of_not_exited _ e1]
    simp [codeFromProcessState, ProcessState.Sys, e1, e2, e3, e4, ErrOther]

/-- C4 (witness): a stopped status with stop signal 19 (`0x137F`) gives 147, and the
continued status `0xFFFF` gives 1. -/
theorem codeFromProcessState_precedence_witness :
    codeFromProcessState (sampleState 0x137F) = 128 + WaitStatus.StopSignal (0x137F : Nat) ∧
    codeFromProcessState (sampleState 0xFFFF) = 1 :=
  ⟨(codeFromProcessState_precedence (sampleState 0x137F)).2.2.2.1
      (by decide) (by decide) (by decide) (by decide),
    (codeFromProcessState_precedence (sampleState 0xFFFF)).2.2.2.2.2 (by decide)⟩

/-- C5: when `os.StartProcess` fails with `err`, `Run` returns that same error and
no `ResourceUsage`; the exit code is 126 if `err` is of the permission class and 127
if it is of the not-exist class. -/
theorem Run_spawn_failure (os : OS) (err : GoError) (h : os.StartProcess = some err) :
    (Run os).err = some err ∧ (Run os).resourceUsage = none ∧
    (GoError.IsPermission err = true → (Run os).code = 126) ∧
    (GoError.IsNotExist err = true → (Run os).code = 127) := by
  have hb := runBody_of_error os err (forkExecVEWait_spawn_error os err h)
  refine ⟨?_, ?_, ?_, ?_⟩
  · rw [Run_err_eq, hb]
  · rw [Run_resourceUsage_eq, hb]
  · intro hp
    rw [Run_code_eq, hb]
    simp only [codeFromExecErr_of_isPermission err hp]
    decide
  · intro hn
    rw [Run_code_eq, hb]
    simp only [codeFromExecErr_of_isNotExist err hn]
    decide

/-- C5 (witness): `fork/exec` failing with `ENOENT` gives 127, and failing with
`EACCES` gives 126, each with the error and without usage. -/
theorem Run_spawn_failure_witness :
    ((spawnFailedOS (.pathError "fork/exec" "./does-not-exist.sh" (.errno ENOENT))).StartProcess
      = some (.pathError "fork/exec" "./does-not-exist.sh" (.errno ENOENT)) ∧
    GoError.IsNotExist (.pathError "fork/exec" "./does-not-exist.sh" (.errno ENOENT)) = true ∧
    (Run (spawnFailedOS (.pathError "fork/exec" "./does-not-exist.sh" (.errno ENOENT)))).code
      = 127) ∧
    ((spawnFailedOS (.pathError "fork/exec" "./non-executable.txt" (.errno EACCES))).StartProcess
      = some (.pathError "fork/exec" "./non-executable.txt" (.errno EACCES)) ∧
    GoError.IsPermission (.pathError "fork/exec" "./non-executable.txt" (.errno EACCES)) = true ∧
    (Run (spawnFailedOS (.pathError "fork/exec" "./non-executable.txt" (.errno EACCES)))).code
      = 126 ∧
    (Run (spawnFailedOS (.pathError "fork/exec" "./non-executable.txt" (.errno EACCES)))).err
      = some (.pathError "fork/exec" "./non-executable.txt" (.errno EACCES)) ∧
    (Run (spawnFailedOS
      (.pathError "fork/exec" "./non-executable.txt" (.errno EACCES)))).resourceUsage = none) :=
  ⟨⟨rfl, by decide,
    (Run_spawn_failure _ (.pathError "fork/exec" "./does-not-exist.sh" (.errno ENOENT))
      rfl).2.2.2 (by decide)⟩,
   ⟨rfl, by decide,
    (Run_spawn_failure _ (.pathError "fork/exec" "./non-executable.txt" (.errno EACCES))
      rfl).2.2.1 (by decide),
    (Run_spawn_failure _ (.pathError "fork/exec" "./non-executable.txt" (.errno EACCES))
      rfl).1,
    (Run_spawn_failure (spawnFailedOS
      (.pathError "fork/exec" "./non-executable.txt" (.errno EACCES))) _ rfl).2.1⟩⟩

/-- C6: `os.StartProcess` reports every failure as a `*PathError` (operation, path
and underlying error). For every such spawn error that is neither of the permission
class nor of the not-exist class, `Run` returns exit code 3, the fork/exec failure
code, together with that error and no `ResourceUsage`. -/
theorem Run_spawn_other (os : OS) (op path : String) (inner : GoError)
    (h : os.StartProcess = some (GoError.pathError op path inner))
    (hp : GoError.IsPermission (GoError.pathError op path inner) = false)
    (hn : GoError.IsNotExist (GoError.pathError op path inner) = false) :
    (Run os).code = 3 ∧ (Run os).code = ErrForkExec ∧
    (Run os).err = some (GoError.pathError op path inner) ∧
    (Run os).resourceUsage = none := by
  have hb := runBody_of_error os _ (forkExecVEWait_spawn_error os _ h)
  have hc : (Run os).code = 3 := by
    rw [Run_code_eq, hb]
    simp only [codeFromExecErr_of_other _ hp hn (fun e he => GoError.noConfusion he)]
    decide
  refine ⟨hc, hc, ?_, ?_⟩
  · rw [Run_err_eq, hb]
  · rw [Run_resourceUsage_eq, hb]

/-- C6 (witness): `fork/exec` failing with `ENOEXEC` (8), reported as a `*PathError`,
gives 3, the error and no usage. -/
theorem Run_spawn_other_witness :
    (spawnFailedOS (.pathError "fork/exec" "./a.out" (.errno 8))).StartProcess
      = some (.pathError "fork/exec" "./a.out" (.errno 8)) ∧
    GoError.IsPermission (.pathError "fork/exec" "./a.out" (.errno 8)) = false ∧
    GoError.IsNotExist (.pathError "fork/exec" "./a.out" (.errno 8)) = false ∧
    ((Run (spawnFailedOS (.pathError "fork/exec" "./a.out" (.errno 8)))).code = 3 ∧
      (Run (spawnFailedOS (.pathError "fork/exec" "./a.out" (.errno 8)))).code = ErrForkExec ∧
      (Run (spawnFailedOS (.pathError "fork/exec" "./a.out" (.errno 8)))).err
        = some (.pathError "fork/exec" "./a.out" (.errno 8)) ∧
      (Run (spawnFailedOS (.pathError "fork/exec" "./a.out" (.errno 8)))).resourceUsage
        = none) :=
  ⟨rfl, by decide, by decide,
    Run_spawn_other (spawnFailedOS (.pathError "fork/exec" "./a.out" (.errno 8)))
      "fork/exec" "./a.out" (.errno 8) rfl (by decide) (by decide)⟩

/-- C7 (counterexample): the child starts and `wait4` fails with `ECHILD`, reported
as a `*SyscallError`; `Run` returns 3, not 1. -/
theorem Run_wait_failure_counterexample :
    (waitFailedOS (.syscallError "wait" (.errno ECHILD))).StartProcess = none ∧
    (waitFailedOS (.syscallError "wait" (.errno ECHILD))).Wait
      = .error (.syscallError "wait" (.errno ECHILD)) ∧
    (Run (waitFailedOS (.syscallError "wait" (.errno ECHILD)))).code = 3 ∧
    (Run (waitFailedOS (.syscallError "wait" (.errno ECHILD)))).code ≠ 1 := by
  refine ⟨rfl, rfl, ?_, ?_⟩ <;> decide

/-- C7 (amended): when the child is spawned and the wait returns an error, `Run`
returns the wait error and no `ResourceUsage`, and the exit code is the one
`codeFromExecErr` derives from that error, clamped: 126 for the permission class,
127 for the not-exist class, 3 for any other error that is not a bare OS error
number, and for a bare OS error number `e` the number itself (255 above 255). -/
theorem Run_wait_failure (os : OS) (err : GoError)
    (hs : os.StartProcess = none) (hw : os.Wait = .error err) :
    (Run os).err = some err ∧ (Run os).resourceUsage = none ∧
    (Run os).code = checkCodeRange (codeFromExecErr err) ∧
    (GoError.IsPermission err = true → (Run os).code = 126) ∧
    (GoError.IsNotExist err = true → (Run os).code = 127) ∧
    (GoError.IsPermission err = false → GoError.IsNotExist err = false →
      (∀ e, err ≠ GoError.errno e) → (Run os).code = 3) ∧
    (GoError.IsPermission err = false → GoError.IsNotExist err = false →
      ∀ e, err = GoError.errno e → e < 2 ^ 64 →
        (Run os).code = if e ≤ 255 then (e : Int) else 255) := by
  have hb := runBody_of_error os err (forkExecVEWait_wait_error os err hs hw)
  have hc : (Run os).code = checkCodeRange (codeFromExecErr err) := by
    rw [Run_code_eq, hb]
  refine ⟨?_, ?_, hc, ?_, ?_, ?_, ?_⟩
  · rw [Run_err_eq, hb]
  · rw [Run_resourceUsage_eq, hb]
  · intro hp
    rw [hc, codeFromExecErr_of_isPermission err hp]
    decide
  · intro hn
    rw [hc, codeFromExecErr_of_isNotExist err hn]
    decide
  · intro hp hn hne
    rw [hc, codeFromExecErr_of_other err hp hn hne]
    decide
  · intro hp hn e he hlt
    subst he
    rw [hc]
    exact codeFromExecErr_of_errno e hlt hp hn

/-- C7 (witness): the wait failing with `ECHILD` gives code 3, the error and no usage. -/
theorem Run_wait_failure_witness :
    (waitFailedOS (.syscallError "wait" (.errno ECHILD))).StartProcess = none ∧
    (waitFailedOS (.syscallError "wait" (.errno ECHILD))).Wait
      = .error (.syscallError "wait" (.errno ECHILD)) ∧
    (Run (waitFailedOS (.syscallError "wait" (.errno ECHILD)))).err
      = some (.syscallError "wait" (.errno ECHILD)) ∧
    (Run (waitFailedOS (.syscallError "wait" (.errno ECHILD)))).resourceUsage = none ∧
    (Run (waitFailedOS (.syscallError "wait" (.errno ECHILD)))).code = 3 :=
  ⟨rfl, rfl,
    (Run_wait_failure _ (.syscallError "wait" (.errno ECHILD)) rfl rfl).1,
    (Run_wait_failure (waitFailedOS (.syscallError "wait" (.errno ECHILD))) _ rfl rfl).2.1,
    (Run_wait_failure _ (.syscallError "wait" (.errno ECHILD)) rfl rfl).2.2.2.2.2.1
      (by decide) (by decide) (by intro e; simp)⟩

/-- C8: whenever `Run` returns a non-nil error `err`, the returned exit code is
non-zero. An OS error number is a non-zero `uintptr`: when `err` is a bare
`syscall.Errno`, its machine value is not 0 (the system-call layer builds an `Errno`
error only from a non-zero number). -/
theorem Run_error_code_nonzero (os : OS) (err : GoError) (h : (Run os).err = some err)
    (herrno : ∀ e, err = GoError.errno e → e % 2 ^ 64 ≠ 0) : (Run os).code ≠ 0 := by
  rw [Run_err_eq] at h
  rw [Run_code_eq]
  intro hz
  rw [checkCodeRange_eq_zero_iff] at hz
  rcases runBody_cases os with ⟨err', hb⟩ | ⟨state, ru, hb⟩
  · rw [hb] at h hz
    simp only [Option.some.injEq] at h
    subst h
    exact codeFromExecErr_ne_zero err' herrno hz
  · rw [hb] at h
    simp at h

/-- C8 (witness): the bare error number 256 returned by the wait: the clamp turns
the code 256 into 255, which is non-zero. -/
theorem Run_error_code_nonzero_witness :
    (Run (waitFailedOS (.errno 256))).err = some (.errno 256) ∧
    (∀ e, GoError.errno 256 = GoError.errno e → e % 2 ^ 64 ≠ 0) ∧
    (Run (waitFailedOS (.errno 256))).code ≠ 0 :=
  ⟨rfl, by intro e he; cases he; decide,
    Run_error_code_nonzero (waitFailedOS (.errno 256)) (.errno 256) rfl
      (by intro e he; cases he; decide)⟩

/-- C9: for every behaviour of the operating system, `Run` returns a `ResourceUsage`
if and only if it returns a nil error. -/
theorem Run_usage_iff_no_error (os : OS) :
    (Run os).resourceUsage.isSome = true ↔ (Run os).err = none := by
  rw [Run_err_eq, Run_resourceUsage_eq]
  rcases runBody_cases os with ⟨err, hb⟩ | ⟨state, ru, hb⟩ <;> simp [hb]

/-- C10 (counterexample): the raw value `2^53` kilobytes is a signed 64-bit value,
and the reported `MaxResidentSetSize` is `-2^63`, not `1024 * 2^53`. -/
theorem Run_maxrss_counterexample :
    isInt64 (2 ^ 53) ∧
    (waitedOS ⟨4242, 0, sampleRusage (2 ^ 53)⟩).StartProcess = none ∧
    (Run (waitedOS ⟨4242, 0, sampleRusage (2 ^ 53)⟩)).err = none ∧
    (Run (waitedOS ⟨4242, 0, sampleRusage (2 ^ 53)⟩)).resourceUsage.map
      ResourceUsage.MaxResidentSetSize = some (-(2 ^ 63)) ∧
    (Run (waitedOS ⟨4242, 0, sampleRusage (2 ^ 53)⟩)).resourceUsage.map
      ResourceUsage.MaxResidentSetSize ≠ some (1024 * 2 ^ 53) := by
  refine ⟨?_, rfl, rfl, ?_, ?_⟩ <;> decide

/-- C10 (amended): on a successful `Run` with raw value `Maxrss`, the reported
`MaxResidentSetSize` is `1024 * Maxrss` reduced to signed 64 bits, and it equals
`1024 * Maxrss` exactly when `-2^53 ≤ Maxrss < 2^53`. -/
theorem Run_maxrss (os : OS) (state : ProcessState)
    (hs : os.StartProcess = none) (hw : os.Wait = .ok state) :
    ∃ ru, (Run os).resourceUsage = some ru ∧
      ru.MaxResidentSetSize = wrap64 (1024 * state.rusage.Maxrss) ∧
      (ru.MaxResidentSetSize = 1024 * state.rusage.Maxrss ↔
        -(2 ^ 53) ≤ state.rusage.Maxrss ∧ state.rusage.Maxrss < 2 ^ 53) := by
  obtain ⟨ru, h1, h2⟩ := runBody_usage_of_ok os state hs hw
  have h3 : ru.MaxResidentSetSize = wrap64 (1024 * state.rusage.Maxrss) := by
    rw [h2]
    congr 1
    ring
  refine ⟨ru, ?_, h3, ?_⟩
  · rw [Run_resourceUsage_eq, h1]
  · rw [h3, wrap64_eq_self_iff]
    omega

/-- C10 (witness): a raw value of 2048 kilobytes is reported as 2097152 bytes. -/
theorem Run_maxrss_witness :
    (waitedOS (sampleState 0)).StartProcess = none ∧
    (waitedOS (sampleState 0)).Wait = .ok (sampleState 0) ∧
    ∃ ru, (Run (waitedOS (sampleState 0))).resourceUsage = some ru ∧
      ru.MaxResidentSetSize = wrap64 (1024 * (sampleState 0).rusage.Maxrss) ∧
      (ru.MaxResidentSetSize = 1024 * (sampleState 0).rusage.Maxrss ↔
        -(2 ^ 53) ≤ (sampleState 0).rusage.Maxrss ∧ (sampleState 0).rusage.Maxrss < 2 ^ 53) :=
  ⟨rfl, rfl, Run_maxrss (waitedOS (sampleState 0)) (sampleState 0) rfl rfl⟩

/-! ## Auxiliary lemmas for the usage record, the step order and the zero code -/

theorem runBody_resourceUsage_of_ok (os : OS) (state : ProcessState)
    (hs : os.StartProcess = none) (hw : os.Wait = .ok state) :
    (runBody os).resourceUsage = some
      { UserTime := TimevalToNsec state.rusage.Utime
        SystemTime := TimevalToNsec state.rusage.Stime
        ElapsedTime := os.Since
        AverageCPU :=
          Seconds (wrap64 (TimevalToNsec state.rusage.Utime + TimevalToNsec state.rusage.Stime))
            / Seconds os.Since
        MaxResidentSetSize := wrap64 (state.rusage.Maxrss * 2 ^ 10)
        MinorPageFaults := state.rusage.Minflt
        MajorPageFaults := state.rusage.Majflt
        InBlockIO := state.rusage.Inblock
        OutBlockIO := state.rusage.Oublock
        ContextSwitchesVoluntarily := state.rusage.Nvcsw
        ContextSwitchesInvoluntarily := state.rusage.Nivcsw } := by
  simp [runBody, forkExecVEWait_ok os state hs hw, ProcessState.SysUsage]

theorem TimevalToNsec_eq_wrap (tv : Timeval) :
    TimevalToNsec tv = wrap64 (tv.Sec * 1000000000 + tv.Usec * 1000) := by
  unfold TimevalToNsec wrap64
  omega

theorem TimevalToNsec_exact (tv : Timeval)
    (h : isInt64 (tv.Sec * 1000000000 + tv.Usec * 1000)) :
    TimevalToNsec tv = tv.Sec * 1000000000 + tv.Usec * 1000 := by
  rw [TimevalToNsec_eq_wrap, wrap64_eq_self_iff]
  exact h

theorem runBody_ok_of_err_none (os : OS) (h : (runBody os).err = none) :
    ∃ state, os.StartProcess = none ∧ os.Wait = .ok state := by
  cases hs : os.StartProcess with
  | some err =>
    rw [runBody_of_error os err (forkExecVEWait_spawn_error os err hs)] at h
    simp at h
  | none =>
    cases hw : os.Wait with
    | error err =>
      rw [runBody_of_error os err (forkExecVEWait_wait_error os err hs hw)] at h
      simp at h
    | ok state => exact ⟨state, rfl, rfl⟩

theorem success_iff (state : ProcessState) :
    state.Success = true ↔
      WaitStatus.Exited state.status = true ∧ WaitStatus.ExitStatus state.status = 0 := by
  unfold ProcessState.Success
  constructor
  · intro h
    have h0 : WaitStatus.ExitStatus state.status = 0 := by simpa using h
    refine ⟨?_, h0⟩
    by_contra hne
    have hf : WaitStatus.Exited state.status = false := by simpa using hne
    rw [exitStatus_of_not_exited _ hf] at h0
    omega
  · intro h
    simp [h.2]

theorem stopSignal_nonneg (w : Nat) : -1 ≤ WaitStatus.StopSignal w := by
  unfold WaitStatus.StopSignal
  split_ifs <;> omega

theorem codeFromProcessState_eq_zero_iff (state : ProcessState) :
    codeFromProcessState state = 0 ↔ state.Success = true := by
  constructor
  · intro h
    by_contra hs
    have hsf : state.Success = false := by simpa using hs
    by_cases he : WaitStatus.Exited state.status = true
    · rw [codeFromProcessState_exited state he] at h
      exact hs ((success_iff state).2 ⟨he, h⟩)
    · have hef : WaitStatus.Exited state.status = false := by simpa using he
      by_cases hg : WaitStatus.Signaled state.status = true
      · rw [codeFromProcessState_signaled state hg] at h
        have := signal_bounds _ hg
        omega
      · have hgf : WaitStatus.Signaled state.status = false := by simpa using hg
        by_cases ht : WaitStatus.Stopped state.status = true
        · have hc : codeFromProcessState state = 128 + WaitStatus.StopSignal state.status := by
            simp [codeFromProcessState, ProcessState.Sys, hsf, hef, hgf, ht, ErrSignal]
          have := stopSignal_nonneg state.status
          omega
        · have htf : WaitStatus.Stopped state.status = false := by simpa using ht
          have hc : codeFromProcessState state = 1 := by
            simp [codeFromProcessState, ProcessState.Sys, hsf, hef, hgf, htf, ErrOther]
          omega
  · intro h
    simp [codeFromProcessState, h, ErrSuccess]

/-! ## Claims on the usage record, the step order and the zero code -/

/-- C11: on a successful `Run`, `UserTime` and `SystemTime` are `TimevalToNsec` of the
user and system timevals, that is `Sec*1e9 + Usec*1e3` in `int64` arithmetic, which
is that integer itself whenever it fits `int64`; `ElapsedTime` is the measured
`time.Since(start)`; and the six counters are the raw `Minflt`, `Majflt`, `Inblock`,
`Oublock`, `Nvcsw` and `Nivcsw`, unchanged. -/
theorem Run_usage_fields (os : OS) (state : ProcessState)
    (hs : os.StartProcess = none) (hw : os.Wait = .ok state) :
    ∃ ru, (Run os).resourceUsage = some ru ∧
      ru.UserTime = TimevalToNsec state.rusage.Utime ∧
      ru.SystemTime = TimevalToNsec state.rusage.Stime ∧
      ru.UserTime =
        wrap64 (state.rusage.Utime.Sec * 1000000000 + state.rusage.Utime.Usec * 1000) ∧
      ru.SystemTime =
        wrap64 (state.rusage.Stime.Sec * 1000000000 + state.rusage.Stime.Usec * 1000) ∧
      (isInt64 (state.rusage.Utime.Sec * 1000000000 + state.rusage.Utime.Usec * 1000) →
        ru.UserTime = state.rusage.Utime.Sec * 1000000000 + state.rusage.Utime.Usec * 1000) ∧
      (isInt64 (state.rusage.Stime.Sec * 1000000000 + state.rusage.Stime.Usec * 1000) →
        ru.SystemTime = state.rusage.Stime.Sec * 1000000000 + state.rusage.Stime.Usec * 1000) ∧
      ru.ElapsedTime = os.Since ∧
      ru.MinorPageFaults = state.rusage.Minflt ∧
      ru.MajorPageFaults = state.rusage.Majflt ∧
      ResourceUsage.InBlockIO ru = state.rusage.Inblock ∧
      ResourceUsage.OutBlockIO ru = state.rusage.Oublock ∧
      ru.ContextSwitchesVoluntarily = state.rusage.Nvcsw ∧
      ru.ContextSwitchesInvoluntarily = state.rusage.Nivcsw := by
  have h := runBody_resourceUsage_of_ok os state hs hw
  rw [← Run_resourceUsage_eq] at h
  exact ⟨_, h, rfl, rfl, TimevalToNsec_eq_wrap _, TimevalToNsec_eq_wrap _,
    TimevalToNsec_exact _, TimevalToNsec_exact _, rfl, rfl, rfl, rfl, rfl, rfl, rfl⟩

/-- C11 (witness): user time 1.5 s, system time 0.25 s, two seconds elapsed. -/
theorem Run_usage_fields_witness :
    (waitedOS (sampleState 0)).StartProcess = none ∧
    (waitedOS (sampleState 0)).Wait = .ok (sampleState 0) ∧
    ∃ ru, (Run (waitedOS (sampleState 0))).resourceUsage = some ru ∧
      ru.UserTime = 1500000000 ∧ ru.SystemTime = 250000000 ∧ ru.ElapsedTime = 2000000000 ∧
      ru.MinorPageFaults = 120 ∧ ru.MajorPageFaults = 3 ∧
      ResourceUsage.InBlockIO ru = 8 ∧ ResourceUsage.OutBlockIO ru = 16 ∧
      ru.ContextSwitchesVoluntarily = 5 ∧ ru.ContextSwitchesInvoluntarily = 7 := by
  obtain ⟨ru, h, h1, h2, _, _, _, _, h3, h4, h5, h6, h7, h8, h9⟩ :=
    Run_usage_fields (waitedOS (sampleState 0)) (sampleState 0) rfl rfl
  refine ⟨rfl, rfl, ru, h, ?_, ?_, ?_, ?_, ?_, ?_, ?_, ?_, ?_⟩
  · rw [h1]; decide
  · rw [h2]; decide
  · rw [h3]; rfl
  · rw [h4]; rfl
  · rw [h5]; rfl
  · rw [h6]; rfl
  · rw [h7]; rfl
  · rw [h8]; rfl
  · rw [h9]; rfl

/-- C12: on a successful `Run`, `AverageCPU` is the `float64` quotient of
`UserTime + SystemTime` (added as durations) taken in seconds and `ElapsedTime`
taken in seconds, for the `UserTime`, `SystemTime` and `ElapsedTime` of the same
record. -/
theorem Run_averageCPU (os : OS) (state : ProcessState)
    (hs : os.StartProcess = none) (hw : os.Wait = .ok state) :
    ∃ ru, (Run os).resourceUsage = some ru ∧
      ru.AverageCPU = Seconds (wrap64 (ru.UserTime + ru.SystemTime)) / Seconds ru.ElapsedTime := by
  have h := runBody_resourceUsage_of_ok os state hs hw
  rw [← Run_resourceUsage_eq] at h
  exact ⟨_, h, rfl⟩

/-- C12 (witness): the sample run with 1.75 s of CPU time in 2 s of wall-clock time. -/
theorem Run_averageCPU_witness :
    (waitedOS (sampleState 0)).StartProcess = none ∧
    (waitedOS (sampleState 0)).Wait = .ok (sampleState 0) ∧
    ∃ ru, (Run (waitedOS (sampleState 0))).resourceUsage = some ru ∧
      ru.AverageCPU = Seconds (wrap64 (ru.UserTime + ru.SystemTime)) / Seconds ru.ElapsedTime :=
  ⟨rfl, rfl, Run_averageCPU (waitedOS (sampleState 0)) (sampleState 0) rfl rfl⟩

/-- C13: on every exit path of `forkExecVEWait` the steps end with `signal.Stop`
followed by `close` of the relay channel, neither of which happens earlier (each runs
exactly once, in this order); `signal.Notify` runs exactly once before them, and
before the wait on the child whenever the child is waited for. -/
theorem forkExecVEWait_teardown_order (os : OS) :
    ∃ pre, (forkExecVEWait os).trace = pre ++ [Event.signalStop, Event.closeChan] ∧
      Event.signalStop ∉ pre ∧ Event.closeChan ∉ pre ∧
      pre.count Event.signalNotify = 1 ∧ pre.count Event.procWait ≤ 1 ∧
      (Event.procWait ∈ pre →
        pre.indexOf Event.signalNotify < pre.indexOf Event.procWait) ∧
      (Event.procWait ∈ pre ↔ os.StartProcess = none) := by
  unfold forkExecVEWait
  cases hs : os.StartProcess with
  | some err =>
    refine ⟨[Event.makeChan, Event.signalNotify, Event.timeNow, Event.startProcess],
      rfl, ?_, ?_, ?_, ?_, ?_, ?_⟩ <;> simp
  | none =>
    cases hw : os.Wait with
    | error err =>
      refine ⟨[Event.makeChan, Event.signalNotify, Event.timeNow, Event.startProcess,
        Event.goForward, Event.procWait], rfl, ?_, ?_, ?_, ?_, ?_, ?_⟩ <;> simp
    | ok state =>
      refine ⟨[Event.makeChan, Event.signalNotify, Event.timeNow, Event.startProcess,
        Event.goForward, Event.procWait], rfl, ?_, ?_, ?_, ?_, ?_, ?_⟩ <;> simp

/-- C18 (counterexample): the child starts, the wait succeeds and reports a normal
exit with status 1 (`0x0100`); `Run` returns a nil error and the code 1, not 0. -/
theorem Run_success_code_counterexample :
    (waitedOS (sampleState 0x0100)).StartProcess = none ∧
    (waitedOS (sampleState 0x0100)).Wait = .ok (sampleState 0x0100) ∧
    (Run (waitedOS (sampleState 0x0100))).err = none ∧
    (Run (waitedOS (sampleState 0x0100))).code = 1 ∧
    (Run (waitedOS (sampleState 0x0100))).code ≠ 0 := by
  refine ⟨rfl, rfl, rfl, ?_, ?_⟩ <;> decide

/-- C18 (amended): whenever starting the child and waiting for it both succeed, `Run`
returns a nil error, a non-nil `ResourceUsage`, and the exit code decoded from the
wait status by `codeFromProcessState`, clamped to `0..255`; the code is 0 exactly when
the wait status reports a normal exit with status 0. -/
theorem Run_success (os : OS) (state : ProcessState)
    (hs : os.StartProcess = none) (hw : os.Wait = .ok state) :
    (Run os).err = none ∧ (Run os).resourceUsage.isSome = true ∧
    (Run os).code = checkCodeRange (codeFromProcessState state) ∧
    ((Run os).code = 0 ↔
      WaitStatus.Exited state.status = true ∧ WaitStatus.ExitStatus state.status = 0) := by
  have hc : (Run os).code = checkCodeRange (codeFromProcessState state) := by
    rw [Run_code_eq, runBody_code_of_ok os state hs hw]
  refine ⟨?_, ?_, hc, ?_⟩
  · rw [Run_err_eq]
    exact runBody_err_of_ok os state hs hw
  · rw [Run_resourceUsage_eq, runBody_resourceUsage_of_ok os state hs hw]
    rfl
  · rw [hc, checkCodeRange_eq_zero_iff, codeFromProcessState_eq_zero_iff, success_iff]

/-- C18 (witness): a normal exit with status 0 gives code 0, nil error and a usage record. -/
theorem Run_success_witness :
    (waitedOS (sampleState 0)).StartProcess = none ∧
    (waitedOS (sampleState 0)).Wait = .ok (sampleState 0) ∧
    (Run (waitedOS (sampleState 0))).err = none ∧
    (Run (waitedOS (sampleState 0))).resourceUsage.isSome = true ∧
    (Run (waitedOS (sampleState 0))).code = 0 :=
  ⟨rfl, rfl, (Run_success (waitedOS (sampleState 0)) (sampleState 0) rfl rfl).1,
    (Run_success (waitedOS (sampleState 0)) (sampleState 0) rfl rfl).2.1,
    (Run_success (waitedOS (sampleState 0)) (sampleState 0) rfl rfl).2.2.2.2
      ⟨by decide, by decide⟩⟩

/-- C19: when `Run` returns a nil error, the child was waited for, and the exit code
is 0, before or after the final clamp, only if the wait status reports a normal exit
with status 0; a wait status that is not a normal exit (signalled, stopped, continued
or anything else) gives a non-zero code before and after the clamp. -/
theorem Run_zero_only_if_exit_zero (os : OS) (h : (Run os).err = none) :
    ∃ state, os.StartProcess = none ∧ os.Wait = .ok state ∧
      ((runBody os).code = 0 →
        WaitStatus.Exited state.status = true ∧ WaitStatus.ExitStatus state.status = 0) ∧
      ((Run os).code = 0 →
        WaitStatus.Exited state.status = true ∧ WaitStatus.ExitStatus state.status = 0) ∧
      (WaitStatus.Exited state.status = false →
        (runBody os).code ≠ 0 ∧ (Run os).code ≠ 0) := by
  rw [Run_err_eq] at h
  obtain ⟨state, hs, hw⟩ := runBody_ok_of_err_none os h
  have hb : (runBody os).code = codeFromProcessState state := runBody_code_of_ok os state hs hw
  have h1 : (runBody os).code = 0 →
      WaitStatus.Exited state.status = true ∧ WaitStatus.ExitStatus state.status = 0 := by
    intro hz
    rw [hb, codeFromProcessState_eq_zero_iff, success_iff] at hz
    exact hz
  have h2 : (Run os).code = 0 →
      WaitStatus.Exited state.status = true ∧ WaitStatus.ExitStatus state.status = 0 := by
    intro hz
    rw [Run_code_eq, checkCodeRange_eq_zero_iff] at hz
    exact h1 hz
  refine ⟨state, hs, hw, h1, h2, ?_⟩
  intro hne
  constructor
  · intro hz
    have := (h1 hz).1
    rw [hne] at this
    exact Bool.false_ne_true this
  · intro hz
    have := (h2 hz).1
    rw [hne] at this
    exact Bool.false_ne_true this

/-- C19 (witness): a stopped status with stop signal 255 (`0xFF7F`) is decoded as
383 and clamped to 255; neither is 0. -/
theorem Run_zero_only_if_exit_zero_witness :
    (Run (waitedOS (sampleState 0xFF7F))).err = none ∧
    ∃ state, (waitedOS (sampleState 0xFF7F)).StartProcess = none ∧
      (waitedOS (sampleState 0xFF7F)).Wait = .ok state ∧
      ((runBody (waitedOS (sampleState 0xFF7F))).code = 0 →
        WaitStatus.Exited state.status = true ∧ WaitStatus.ExitStatus state.status = 0) ∧
      ((Run (waitedOS (sampleState 0xFF7F))).code = 0 →
        WaitStatus.Exited state.status = true ∧ WaitStatus.ExitStatus state.status = 0) ∧
      (WaitStatus.Exited state.status = false →
        (runBody (waitedOS (sampleState 0xFF7F))).code ≠ 0 ∧
        (Run (waitedOS (sampleState 0xFF7F))).code ≠ 0) :=
  ⟨rfl, Run_zero_only_if_exit_zero (waitedOS (sampleState 0xFF7F)) rfl⟩

/-! ## Auxiliary lemmas for package `pusher` -/

theorem SplitN_of_contains (l : String) (h : l.data.contains '=' = true) :
    SplitN l '=' 2 =
      [String.mk (l.data.takeWhile fun r => r != '='),
        String.mk ((l.data.dropWhile fun r => r != '=').tail)] := by
  have hm : '=' ∈ l.data := by simpa using h
  simp [SplitN, splitNRunes, hm]

theorem SplitN_of_not_contains (l : String) (h : l.data.contains '=' = false) :
    SplitN l '=' 2 = [l] := by
  have hm : '=' ∉ l.data := by simpa using h
  simp [SplitN, splitNRunes, hm]

theorem setLoop_cons (vd : Validation) (l : String) (rest : List String) (m : LabelSet) :
    setLoop vd (l :: rest) m =
      if itemValid vd l then setLoop vd rest (LabelSet.store m (itemName l) (itemValue l))
      else (m, some (SetError.notAValidLabel l)) := by
  by_cases h : l.data.contains '=' = true
  · rw [setLoop, SplitN_of_contains l h]
    by_cases h1 : vd.LabelNameIsValid (itemName l) = true <;>
      by_cases h2 : ContainsRune (itemName l) '/' = true <;>
      by_cases h3 : vd.LabelValueIsValid (itemValue l) = true <;>
      simp_all [itemValid, itemName, itemValue]
  · have hf : l.data.contains '=' = false := by simpa using h
    have hm : '=' ∉ l.data := by simpa using h
    rw [setLoop, SplitN_of_not_contains l hf]
    simp [itemValid, hm]

theorem setLoop_err_ne_none_iff (vd : Validation) (items : List String) (m : LabelSet) :
    (setLoop vd items m).2 ≠ none ↔ ∃ l ∈ items, itemValid vd l = false := by
  induction items generalizing m with
  | nil => simp [setLoop]
  | cons l rest ih =>
    rw [setLoop_cons]
    by_cases h : itemValid vd l = true
    · simp [h, ih]
    · have hf : itemValid vd l = false := by simpa using h
      simp [hf]

theorem setLoop_fst_of_ok (vd : Validation) (items : List String) (m : LabelSet)
    (h : (setLoop vd items m).2 = none) :
    (setLoop vd items m).1 =
      (items.map fun l => (itemName l, itemValue l)).foldl
        (fun m p => LabelSet.store m p.1 p.2) m := by
  induction items generalizing m with
  | nil => simp [setLoop]
  | cons l rest ih =>
    rw [setLoop_cons] at h ⊢
    by_cases hv : itemValid vd l = true
    · simp only [hv, if_true] at h ⊢
      rw [ih _ h]
      simp
    · have hf : itemValid vd l = false := by simpa using hv
      simp [hf] at h

theorem itemValid_eq_false_iff (vd : Validation) (l : String) :
    itemValid vd l = false ↔
      ('=' ∉ l.data ∨ vd.LabelNameIsValid (itemName l) = false ∨
        '/' ∈ (itemName l).data ∨ vd.LabelValueIsValid (itemValue l) = false) := by
  by_cases h0 : '=' ∈ l.data <;>
    by_cases h1 : vd.LabelNameIsValid (itemName l) = true <;>
    by_cases h2 : '/' ∈ (itemName l).data <;>
    by_cases h3 : vd.LabelValueIsValid (itemValue l) = true <;>
    simp_all [itemValid, ContainsRune]

theorem Labels_Set_snd (vd : Validation) (ll : Labels) (v : String) :
    (Labels.Set vd ll v).2 =
      (setLoop vd (FieldsFunc v comma)
        (if ll.hasBeenReset then ll.labelSet else LabelSet.empty)).2 := by
  cases hr : ll.hasBeenReset <;> simp [Labels.Set, hr]

theorem Labels_Set_labelSet (vd : Validation) (ll : Labels) (v : String) :
    (Labels.Set vd ll v).1.labelSet =
      (setLoop vd (FieldsFunc v comma)
        (if ll.hasBeenReset then ll.labelSet else LabelSet.empty)).1 := by
  cases hr : ll.hasBeenReset <;> simp [Labels.Set, hr]

theorem Labels_Set_hasBeenReset (vd : Validation) (ll : Labels) (v : String) :
    (Labels.Set vd ll v).1.hasBeenReset = true := by
  cases hr : ll.hasBeenReset <;> simp [Labels.Set, hr]

theorem fieldsFuncLoop_mem (f : Char → Bool) (s : List Char) :
    ∀ cur : List Char, (∀ r ∈ cur, f r = false) →
      ∀ x ∈ fieldsFuncLoop f s cur, x ≠ [] ∧ ∀ r ∈ x, f r = false := by
  induction s with
  | nil =>
    intro cur hcur x hx
    by_cases hc : cur = []
    · simp [fieldsFuncLoop, hc] at hx
    · simp only [fieldsFuncLoop, hc, if_false, List.mem_singleton] at hx
      subst hx
      exact ⟨hc, hcur⟩
  | cons r rest ih =>
    intro cur hcur x hx
    by_cases hf : f r = true
    · by_cases hc : cur = []
      · simp only [fieldsFuncLoop, hf, hc, if_true] at hx
        exact ih [] (by simp) x hx
      · simp only [fieldsFuncLoop, hf, hc, if_true, if_false, List.mem_cons] at hx
        rcases hx with hx | hx
        · subst hx
          exact ⟨hc, hcur⟩
        · exact ih [] (by simp) x hx
    · have hff : f r = false := by simpa using hf
      simp only [fieldsFuncLoop, hff, Bool.false_eq_true, if_false] at hx
      refine ih (cur ++ [r]) ?_ x hx
      intro c hcm
      rw [List.mem_append] at hcm
      rcases hcm with hcm | hcm
      · exact hcur c hcm
      · rw [List.mem_singleton] at hcm
        subst hcm
        exact hff

theorem FieldsFunc_comma_mem (v l : String) (h : l ∈ FieldsFunc v comma) :
    l ≠ "" ∧ ',' ∉ l.data := by
  unfold FieldsFunc at h
  rw [List.mem_map] at h
  obtain ⟨x, hx, rfl⟩ := h
  obtain ⟨hne, hno⟩ := fieldsFuncLoop_mem comma v.data [] (by simp) x hx
  constructor
  · intro he
    apply hne
    have := congrArg String.data he
    simpa using this
  · intro hm
    have := hno ',' hm
    simp [comma] at this

theorem foldl_store_apply (ps : List (String × String)) (m : LabelSet) (k : String) :
    (ps.foldl (fun m p => LabelSet.store m p.1 p.2) m) k =
      (((ps.reverse.find? fun p => p.1 == k).map fun p => p.2).or (m k)) := by
  induction ps generalizing m with
  | nil => simp
  | cons p ps ih =>
    rw [List.foldl_cons, ih, List.reverse_cons, List.find?_append]
    cases hfind : ps.reverse.find? (fun p => p.1 == k) with
    | some q => simp
    | none =>
      by_cases hk : p.1 = k
      · simp [LabelSet.store, hk]
      · have hk2 : ¬ k = p.1 := fun h => hk h.symm
        simp [LabelSet.store, hk, hk2]

theorem setAll_labelSet (vd : Validation) (calls : List String) :
    ∀ ll ll1 : Labels, ll.hasBeenReset = true → setAll vd ll calls = some ll1 →
      ll1.hasBeenReset = true ∧
      ll1.labelSet =
        (parsedPairs calls).foldl (fun m p => LabelSet.store m p.1 p.2) ll.labelSet := by
  induction calls with
  | nil =>
    intro ll ll1 hr h
    simp only [setAll, Option.some.injEq] at h
    subst h
    exact ⟨hr, by simp [parsedPairs]⟩
  | cons v rest ih =>
    intro ll ll1 hr h
    have hsnd := Labels_Set_snd vd ll v
    have hset := Labels_Set_labelSet vd ll v
    have hreset := Labels_Set_hasBeenReset vd ll v
    cases hres : Labels.Set vd ll v with
    | mk ll2 e =>
      rw [hres] at hsnd hset hreset
      cases e with
      | some err => simp [setAll, hres] at h
      | none =>
        simp only [setAll, hres] at h
        obtain ⟨h1, h2⟩ := ih ll2 ll1 hreset h
        refine ⟨h1, ?_⟩
        rw [h2, hset]
        simp only [hr, if_true] at hsnd ⊢
        rw [setLoop_fst_of_ok vd _ _ hsnd.symm]
        simp [parsedPairs, List.foldl_append]

/-! ## Claims on package `pusher` and on the metric table -/

/-- C15: for every namespace, subsystem and name, `BuildFQName` returns the empty
string when `name` is empty, and otherwise the non-empty components among namespace,
subsystem and name, in that order, joined by `_`. -/
theorem BuildFQName_spec (nameSpace subsystem name : String) :
    BuildFQName nameSpace subsystem name =
      if name = "" then "" else Join (nonEmptyComponents nameSpace subsystem name) "_" := by
  unfold BuildFQName nonEmptyComponents
  by_cases hn : name = "" <;> by_cases h1 : nameSpace = "" <;>
    by_cases h2 : subsystem = "" <;>
    simp [hn, h1, h2, Join, List.filter, String.intercalate, String.intercalate.go]

/-- C16: for every receiver and every input string, `Labels.Set` returns an error if
and only if some item of the input (a non-empty, comma-free piece between commas)
contains no `=`, or has a name that is not a valid label name or contains `/`, or has
a value that is not a valid label value; otherwise it returns nil. -/
theorem Labels_Set_error_iff (vd : Validation) (ll : Labels) (v : String) :
    ((Labels.Set vd ll v).2 ≠ none ↔
      ∃ l ∈ FieldsFunc v comma,
        '=' ∉ l.data ∨ vd.LabelNameIsValid (itemName l) = false ∨
          '/' ∈ (itemName l).data ∨ vd.LabelValueIsValid (itemValue l) = false) ∧
    ((Labels.Set vd ll v).2 = none ↔
      ∀ l ∈ FieldsFunc v comma,
        '=' ∈ l.data ∧ vd.LabelNameIsValid (itemName l) = true ∧
          '/' ∉ (itemName l).data ∧ vd.LabelValueIsValid (itemValue l) = true) ∧
    (∀ l ∈ FieldsFunc v comma, l ≠ "" ∧ ',' ∉ l.data) := by
  have key : (Labels.Set vd ll v).2 ≠ none ↔
      ∃ l ∈ FieldsFunc v comma,
        '=' ∉ l.data ∨ vd.LabelNameIsValid (itemName l) = false ∨
          '/' ∈ (itemName l).data ∨ vd.LabelValueIsValid (itemValue l) = false := by
    rw [Labels_Set_snd, setLoop_err_ne_none_iff]
    constructor
    · rintro ⟨l, hl, hbad⟩
      exact ⟨l, hl, (itemValid_eq_false_iff vd l).1 hbad⟩
    · rintro ⟨l, hl, hbad⟩
      exact ⟨l, hl, (itemValid_eq_false_iff vd l).2 hbad⟩
  refine ⟨key, ?_, fun l hl => FieldsFunc_comma_mem v l hl⟩
  constructor
  · intro hnone l hl
    have hno : ¬ ∃ l ∈ FieldsFunc v comma,
        '=' ∉ l.data ∨ vd.LabelNameIsValid (itemName l) = false ∨
          '/' ∈ (itemName l).data ∨ vd.LabelValueIsValid (itemValue l) = false :=
      fun hex => (key.2 hex) hnone
    have hl2 : ¬ ('=' ∉ l.data ∨ vd.LabelNameIsValid (itemName l) = false ∨
          '/' ∈ (itemName l).data ∨ vd.LabelValueIsValid (itemValue l) = false) :=
      fun hb => hno ⟨l, hl, hb⟩
    simp only [not_or, not_not, Bool.not_eq_false] at hl2
    exact hl2
  · intro hall
    by_contra hne
    obtain ⟨l, hl, hbad⟩ := key.1 hne
    obtain ⟨h0, h1, h2, h3⟩ := hall l hl
    rcases hbad with hb | hb | hb | hb
    · exact hb h0
    · rw [h1] at hb
      exact Bool.noConfusion hb
    · exact h2 hb
    · rw [h3] at hb
      exact Bool.noConfusion hb

/-- C17: `getMetricNames` returns eleven pairwise distinct names, one per field of
`ResourceUsage`; the keys of `metricDoc` are pairwise distinct; a string is one of the
names exactly when it is a key of `metricDoc`; and every name has a help string. -/
theorem metricNames_match_metricDoc :
    ∃ names, getMetricNames = Except.ok names ∧ names.length = 11 ∧
      names.length = resourceUsageFields.length ∧ names.Nodup ∧
      (metricDoc.map Prod.fst).Nodup ∧
      (∀ k, k ∈ names ↔ k ∈ metricDoc.map Prod.fst) ∧
      (∀ k, k ∈ names → ∃ help, metricDoc.lookup k = some help) := by
  refine ⟨metricDoc.map Prod.fst, rfl, by decide, by decide, by decide, by decide,
    fun k => Iff.rfl, ?_⟩
  intro k hk
  simp only [metricDoc, List.map_cons, List.map_nil, List.mem_cons, List.mem_singleton,
    List.not_mem_nil, or_false] at hk
  rcases hk with h | h | h | h | h | h | h | h | h | h | h <;> subst h <;> exact ⟨_, rfl⟩

/-- C20: for every initial label set and every non-empty sequence of `Set` calls
that all succeed, the resulting label set is the map built from the empty map by
storing the name/value pairs parsed from the calls, in order; so a name has the value
of the last pair with that name and no value when no pair has that name, whatever
the initial label set was. -/
theorem setAll_NewLabels (vd : Validation) (ls : LabelSet) (calls : List String)
    (ll : Labels) (hne : calls ≠ []) (h : setAll vd (NewLabels ls) calls = some ll) :
    ll.LabelSet = LabelSet.ofPairs (parsedPairs calls) ∧
    (∀ k, ll.LabelSet k =
      ((parsedPairs calls).reverse.find? fun p => p.1 == k).map fun p => p.2) ∧
    (∀ ll0, setAll vd (NewLabels LabelSet.empty) calls = some ll0 →
      ll0.LabelSet = ll.LabelSet) := by
  have main : ∀ ls0 ll0, setAll vd (NewLabels ls0) calls = some ll0 →
      ll0.labelSet = LabelSet.ofPairs (parsedPairs calls) := by
    intro ls0 ll0 h0
    cases calls with
    | nil => exact absurd rfl hne
    | cons v rest =>
      have hsnd := Labels_Set_snd vd (NewLabels ls0) v
      have hset := Labels_Set_labelSet vd (NewLabels ls0) v
      have hreset := Labels_Set_hasBeenReset vd (NewLabels ls0) v
      cases hres : Labels.Set vd (NewLabels ls0) v with
      | mk ll2 e =>
        rw [hres] at hsnd hset hreset
        cases e with
        | some err => simp [setAll, hres] at h0
        | none =>
          simp only [setAll, hres] at h0
          obtain ⟨_, h2⟩ := setAll_labelSet vd rest ll2 ll0 hreset h0
          rw [h2, hset]
          simp only [NewLabels, Bool.false_eq_true, if_false] at hsnd ⊢
          rw [setLoop_fst_of_ok vd _ _ hsnd.symm]
          simp [LabelSet.ofPairs, parsedPairs, List.foldl_append]
  have h1 : ll.labelSet = LabelSet.ofPairs (parsedPairs calls) := main ls ll h
  refine ⟨h1, ?_, ?_⟩
  · intro k
    show ll.labelSet k = _
    rw [h1, LabelSet.ofPairs, foldl_store_apply]
    simp [LabelSet.empty]
  · intro ll0 h0
    show ll0.labelSet = ll.labelSet
    rw [h1, main LabelSet.empty ll0 h0]

/-- C20 (witness): initial set `job=rusage`; the calls `a=b, c = d`, the empty input
and `a=x` all succeed and leave `a=x`, `c=d` and no `job`; a single call with the
empty input succeeds and leaves no `job` either. -/
theorem setAll_NewLabels_witness :
    (∃ ll, setAll legacyValidation (NewLabels (LabelSet.ofPairs [("job", "rusage")]))
        ["a=b, c = d", "", "a=x"] = some ll ∧
      ll.LabelSet "a" = some "x" ∧ ll.LabelSet "c" = some "d" ∧ ll.LabelSet "job" = none) ∧
    (∃ ll, setAll legacyValidation (NewLabels (LabelSet.ofPairs [("job", "rusage")]))
        [""] = some ll ∧ ll.LabelSet "job" = none) := by
  have hs : (setAll legacyValidation (NewLabels (LabelSet.ofPairs [("job", "rusage")]))
      ["a=b, c = d", "", "a=x"]).isSome = true := by decide
  obtain ⟨ll, hll⟩ := Option.isSome_iff_exists.1 hs
  have hthm := setAll_NewLabels legacyValidation (LabelSet.ofPairs [("job", "rusage")])
    ["a=b, c = d", "", "a=x"] ll (by decide) hll
  have hs1 : (setAll legacyValidation (NewLabels (LabelSet.ofPairs [("job", "rusage")]))
      [""]).isSome = true := by decide
  obtain ⟨ll1, hll1⟩ := Option.isSome_iff_exists.1 hs1
  have hthm1 := setAll_NewLabels legacyValidation (LabelSet.ofPairs [("job", "rusage")])
    [""] ll1 (by decide) hll1
  refine ⟨⟨ll, hll, ?_, ?_, ?_⟩, ⟨ll1, hll1, ?_⟩⟩
  · rw [hthm.2.1]; decide
  · rw [hthm.2.1]; decide
  · rw [hthm.2.1]; decide
  · rw [hthm1.2.1]; decide

end Rusage
